import Mathlib

/-!
# Verification of the 3×3 grid-selection TUI state machine

Shallow embedding of the grid-navigation state machine of `src/main.rs`:
three columns of three cells each, an active-column index, a remembered
row, an input dispatcher, a toggle action, and the terminal-mode
setup/teardown of `main`.

Machine integers (`usize`) are modelled as `Nat`; the overflow boundary is
never approached (all arithmetic is clamped below 3, with `9` as the
out-of-range sentinel). `Option` models Rust's `Option`. Standard output
is modelled as the list of lines printed (`println!("{}", row)` appends
the printed row index as one entry).
-/

set_option autoImplicit false

/-- Visual tag of a grid cell: the background color of its `ListItem`.
Cells are created with `Color::Red` (the "Empty" tag of the spec); the
toggle action builds a `Color::White` style. -/
inductive CellColor where
  | red
  | white
deriving DecidableEq, Repr

/-- Embeds `ColumnState<T>` from `src/main.rs`: a fixed array of items
(`[T; 3]`, modelled as a list that is always of length 3) and a
`ListState`, of which the only relevant part is `selected: Option<usize>`.
-/
structure ColumnState where
  items : List CellColor
  selected : Option Nat
deriving DecidableEq, Repr

namespace ColumnState

/-- Embeds `ColumnState::new`: `ListState::default()` has no selection. -/
def new (items : List CellColor) : ColumnState :=
  { items := items, selected := none }

/-- Embeds `ColumnState::next`: advance the selection by one, clamped to
the last item; when nothing is selected, select `row`. -/
def next (c : ColumnState) (row : Nat) : ColumnState :=
  let i :=
    match c.selected with
    | some i => if i < c.items.length - 1 then i + 1 else i
    | none => row
  { c with selected := some i }

/-- Embeds `ColumnState::previous`: move the selection back by one,
clamped at 0; when nothing is selected, select `row`. -/
def previous (c : ColumnState) (row : Nat) : ColumnState :=
  let i :=
    match c.selected with
    | some i => if i > 0 then i - 1 else i
    | none => row
  { c with selected := some i }

/-- Embeds `ColumnState::return_selected`: the selected row when one is
selected, and the out-of-range marker value `9` otherwise. -/
def return_selected (c : ColumnState) : Nat :=
  match c.selected with
  | some i => i
  | none => 9

/-- Embeds `ColumnState::unselect`. -/
def unselect (c : ColumnState) : ColumnState :=
  { c with selected := none }

end ColumnState

/-- The key events the dispatcher in `main` distinguishes: the five
handled keys, the quit key, and `other` for every ignored event
(unrecognized keys and non-key events). -/
inductive Input where
  | down
  | up
  | right
  | left
  | keyW
  | keyQ
  | other
deriving DecidableEq, Repr

/-- The mutable state of `main`: the three columns (`left_column`,
`central_column`, `right_column`), `column_number`, the remembered `row`,
and the lines printed to standard output so far. -/
structure GState where
  left_column : ColumnState
  central_column : ColumnState
  right_column : ColumnState
  column_number : Nat
  row : Nat
  out : List Nat
deriving DecidableEq, Repr

namespace GState

/-- Indexing the array `[&mut left_column, &mut central_column, &mut
right_column]` built each loop iteration. An index beyond 2 panics in the
source; the total variant returns junk there (`stepChecked` models the
panic, and the reachable-state invariant keeps the index below 3). -/
def col (s : GState) : Nat → ColumnState
  | 0 => s.left_column
  | 1 => s.central_column
  | 2 => s.right_column
  | _ => s.left_column

/-- Writing back `columns[i]` after a mutation; out-of-range writes do
not occur (the source reads and writes through the same index). -/
def setCol (s : GState) (i : Nat) (c : ColumnState) : GState :=
  match i with
  | 0 => { s with left_column := c }
  | 1 => { s with central_column := c }
  | 2 => { s with right_column := c }
  | _ => s

/-- Bounds-checked indexing of the three-column array, `none` where the
source would panic. -/
def colChecked (s : GState) : Nat → Option ColumnState
  | 0 => some s.left_column
  | 1 => some s.central_column
  | 2 => some s.right_column
  | _ => none

end GState

/-- One column's part of the `toggle_white` loop body: `let row =
col.return_selected(); if row != 9 { println!("{}", row); ... }`. The call
`col.items[row].style(Style::default().bg(Color::White))` is the by-value
builder `ListItem::style`; its result is discarded on the spot, so the
stored item array is unchanged and only the printed line remains. -/
def toggleStep (c : ColumnState) (out : List Nat) : List Nat :=
  let row := c.return_selected
  if row ≠ 9 then out ++ [row] else out

/-- Embeds `toggle_white`: iterate over the three columns in order and run
the loop body on each. The columns themselves are unchanged (see
`toggleStep`: the restyled `ListItem` is never stored back). -/
def toggle_white (s : GState) : GState :=
  { s with
    out := toggleStep s.right_column
      (toggleStep s.central_column (toggleStep s.left_column s.out)) }

/-- Bounds-checked variant of one `toggle_white` loop body:
`col.items[row]` panics when `row` is out of range of the item array. -/
def toggleStepChecked (c : ColumnState) (out : List Nat) :
    Option (List Nat) :=
  let row := c.return_selected
  if row ≠ 9 then
    match c.items[row]? with
    | some _ => some (out ++ [row])
    | none => none
  else some out

/-- One iteration of the `match key.code` dispatcher in `main`'s event
loop, for every input other than quit (on `q` the loop breaks with no
state mutation, so `keyQ` leaves the state unchanged here; the loop
structure itself is modelled by `mainLoop`). -/
def step (s : GState) (e : Input) : GState :=
  match e with
  | Input.down =>
      let c := (s.col s.column_number).next s.row
      let s1 := s.setCol s.column_number c
      { s1 with row := c.return_selected }
  | Input.up =>
      let c := (s.col s.column_number).previous s.row
      let s1 := s.setCol s.column_number c
      { s1 with row := c.return_selected }
  | Input.right =>
      if s.column_number < 2 then
        let s1 := s.setCol s.column_number
          ((s.col s.column_number).unselect)
        let s2 := { s1 with column_number := s1.column_number + 1 }
        s2.setCol s2.column_number
          ((s2.col s2.column_number).next s2.row)
      else s
  | Input.left =>
      if s.column_number > 0 then
        let s1 := s.setCol s.column_number
          ((s.col s.column_number).unselect)
        let s2 := { s1 with column_number := s1.column_number - 1 }
        s2.setCol s2.column_number
          ((s2.col s2.column_number).next s2.row)
      else s
  | Input.keyW => toggle_white s
  | Input.keyQ => s
  | Input.other => s

/-- Bounds-checked variant of `step`: every array access of the source
(`columns[column_number]`, `col.items[row]`) is checked, and `none` marks
the panic the source would raise on an out-of-range index. -/
def stepChecked (s : GState) (e : Input) : Option GState :=
  match e with
  | Input.down =>
      match s.colChecked s.column_number with
      | none => none
      | some col =>
          let c := col.next s.row
          some { s.setCol s.column_number c with
                   row := c.return_selected }
  | Input.up =>
      match s.colChecked s.column_number with
      | none => none
      | some col =>
          let c := col.previous s.row
          some { s.setCol s.column_number c with
                   row := c.return_selected }
  | Input.right =>
      if s.column_number < 2 then
        match s.colChecked s.column_number with
        | none => none
        | some col =>
            let s1 := s.setCol s.column_number col.unselect
            let s2 := { s1 with column_number := s1.column_number + 1 }
            match s2.colChecked s2.column_number with
            | none => none
            | some col2 =>
                some (s2.setCol s2.column_number (col2.next s2.row))
      else some s
  | Input.left =>
      if s.column_number > 0 then
        match s.colChecked s.column_number with
        | none => none
        | some col =>
            let s1 := s.setCol s.column_number col.unselect
            let s2 := { s1 with column_number := s1.column_number - 1 }
            match s2.colChecked s2.column_number with
            | none => none
            | some col2 =>
                some (s2.setCol s2.column_number (col2.next s2.row))
      else some s
  | Input.keyW =>
      match toggleStepChecked s.left_column s.out with
      | none => none
      | some o1 =>
          match toggleStepChecked s.central_column o1 with
          | none => none
          | some o2 =>
              match toggleStepChecked s.right_column o2 with
              | none => none
              | some o3 => some { s with out := o3 }
  | Input.keyQ => some s
  | Input.other => some s

/-- The item array every column is built with in `main`: three cells with
a red background (the "Empty" visual tag). -/
def emptyItems : List CellColor :=
  [CellColor.red, CellColor.red, CellColor.red]

/-- The state of `main` just before the event loop: three unselected
columns of red cells, `column_number = 0`, `row = 0`, nothing printed. -/
def initState : GState :=
  { left_column := ColumnState.new emptyItems
    central_column := ColumnState.new emptyItems
    right_column := ColumnState.new emptyItems
    column_number := 0
    row := 0
    out := [] }

/-- Run the dispatcher over a whole input sequence from the initial
state. -/
def run (l : List Input) : GState :=
  l.foldl step initState

/-- Run the bounds-checked dispatcher over a whole input sequence; `none`
marks a panic along the way. -/
def runChecked (l : List Input) : Option GState :=
  l.foldl (fun acc e => acc.bind (fun s => stepChecked s e)) (some initState)

/-- How many of the three columns currently have a selection. -/
def numSelected (s : GState) : Nat :=
  (if s.left_column.selected.isSome then 1 else 0) +
  (if s.central_column.selected.isSome then 1 else 0) +
  (if s.right_column.selected.isSome then 1 else 0)

/-- Structural invariant of every reachable state: the column index, the
remembered row and every selection are below 3, only the active column may
be selected, a selected active column is selected at the remembered row,
and the cell arrays are the three red cells they were built with (the
toggle action never stores its restyled item back). -/
def ReachInv (s : GState) : Prop :=
  s.column_number < 3 ∧ s.row < 3 ∧
  s.left_column.items = emptyItems ∧
  s.central_column.items = emptyItems ∧
  s.right_column.items = emptyItems ∧
  (s.column_number ≠ 0 → s.left_column.selected = none) ∧
  (s.column_number ≠ 1 → s.central_column.selected = none) ∧
  (s.column_number ≠ 2 → s.right_column.selected = none) ∧
  ((s.col s.column_number).selected = none ∨
    (s.col s.column_number).selected = some s.row)

/-- A reachable state is either still the initial state or has its active
column selected. -/
def Focused (s : GState) : Prop :=
  s = initState ∨ ((s.col s.column_number).selected).isSome = true

/-- One result of `event::read()?` in the loop: an event, or an I/O error
(which the `?` operator propagates out of `main`). -/
inductive ReadResult where
  | ev (e : Input)
  | err
deriving DecidableEq, Repr

/-- The two terminal modes `main` acquires before the loop: raw mode
(`enable_raw_mode`) and the alternate screen (`EnterAlternateScreen`). -/
structure TermModes where
  raw : Bool
  alt : Bool
deriving DecidableEq, Repr

/-- How a run of `main`'s event loop ends: a normal quit (after the
`exit` teardown ran), an error propagated by `?` out of the loop, or still
blocked waiting for input when the modelled input stream ends. -/
inductive Outcome where
  | ok (t : TermModes) (s : GState)
  | errored (t : TermModes) (s : GState)
  | pending (t : TermModes) (s : GState)
deriving DecidableEq, Repr

/-- Embeds the event loop of `main` together with its exit paths: a read
error makes `event::read()?` return `Err` from `main` with the terminal
modes exactly as they were (no teardown runs on this path); the `q` key
breaks the loop, after which `exit` disables raw mode and leaves the
alternate screen; every other event is dispatched by `step` and the loop
continues. -/
def mainLoop : GState → TermModes → List ReadResult → Outcome
  | s, t, [] => Outcome.pending t s
  | s, t, ReadResult.err :: _ => Outcome.errored t s
  | s, t, ReadResult.ev e :: rest =>
      match e with
      | Input.keyQ => Outcome.ok { raw := false, alt := false } s
      | _ => mainLoop (step s e) t rest

/-- Embeds `main`: enable raw mode and enter the alternate screen, then
run the event loop on the given stream of read results. -/
def mainRun (inputs : List ReadResult) : Outcome :=
  mainLoop initState { raw := true, alt := true } inputs

/-- Selected row of the left column after `n` Down presses from the
initial state, with 0 standing for "no selection yet" (only the case
`n = 0`). -/
def rowAfterDowns (n : Nat) : Nat :=
  ((run (List.replicate n Input.down)).col 0).selected.getD 0

/-- Selected row of the left column after `n` Up presses from the initial
state, with 0 standing for "no selection yet" (only the case `n = 0`). -/
def rowAfterUps (n : Nat) : Nat :=
  ((run (List.replicate n Input.up)).col 0).selected.getD 0

/-- Closed form of the state after `n` Down presses from the initial
state (see `run_downs`). -/
def downState (n : Nat) : GState :=
  { initState with
    left_column :=
      { items := emptyItems
        selected := if n = 0 then none else some (min (n - 1) 2) }
    row := min (n - 1) 2 }

/-- Closed form of the state after `n` Up presses from the initial state
(see `run_ups`). -/
def upState (n : Nat) : GState :=
  { initState with
    left_column :=
      { items := emptyItems
        selected := if n = 0 then none else some 0 } }

/-! ## Invariant lemmas -/

theorem reachInv_init : ReachInv initState := by
  unfold ReachInv
  decide

theorem reachInv_step (s : GState) (e : Input) (h : ReachInv s) :
    ReachInv (step s e) := by
  obtain ⟨⟨li, ls⟩, ⟨ci, cs⟩, ⟨ri, rs⟩, cn, rw, o⟩ := s
  obtain ⟨h1, h2, h3, h4, h5, h6, h7, h8, h9⟩ := h
  dsimp only at h1 h2 h3 h4 h5 h6 h7 h8 h9
  interval_cases cn <;> cases e <;>
    rcases ls with _ | i <;> rcases cs with _ | j <;> rcases rs with _ | k <;>
    simp_all [ReachInv, step, GState.col, GState.setCol, toggle_white,
      toggleStep, ColumnState.next, ColumnState.previous,
      ColumnState.return_selected, ColumnState.unselect, emptyItems] <;>
    first
    | omega
    | (split_ifs <;> omega)

theorem reachInv_foldl (l : List Input) (s : GState) (h : ReachInv s) :
    ReachInv (l.foldl step s) := by
  induction l generalizing s with
  | nil => exact h
  | cons e l ih => exact ih (step s e) (reachInv_step s e h)

theorem reachInv_run (l : List Input) : ReachInv (run l) :=
  reachInv_foldl l initState reachInv_init

theorem focused_step (s : GState) (e : Input) (hI : ReachInv s)
    (hF : Focused s) : Focused (step s e) := by
  obtain ⟨⟨li, ls⟩, ⟨ci, cs⟩, ⟨ri, rs⟩, cn, rw, o⟩ := s
  obtain ⟨h1, h2, h3, h4, h5, h6, h7, h8, h9⟩ := hI
  dsimp only at h1 h2 h3 h4 h5 h6 h7 h8 h9
  interval_cases cn <;> cases e <;>
    rcases ls with _ | i <;> rcases cs with _ | j <;> rcases rs with _ | k <;>
    simp_all [Focused, initState, ColumnState.new, step, GState.col,
      GState.setCol, toggle_white, toggleStep, ColumnState.next,
      ColumnState.previous, ColumnState.return_selected,
      ColumnState.unselect, emptyItems]

theorem focused_run (l : List Input) : Focused (run l) := by
  have key : ∀ (l : List Input) (s : GState), ReachInv s → Focused s →
      Focused (l.foldl step s) := by
    intro l
    induction l with
    | nil => exact fun s _ hF => hF
    | cons e l ih =>
        intro s hI hF
        exact ih (step s e) (reachInv_step s e hI) (focused_step s e hI hF)
  exact key l initState reachInv_init (Or.inl rfl)

theorem numSelected_focused (s : GState) (hI : ReachInv s)
    (hS : ((s.col s.column_number).selected).isSome = true) :
    numSelected s = 1 := by
  obtain ⟨⟨li, ls⟩, ⟨ci, cs⟩, ⟨ri, rs⟩, cn, rw, o⟩ := s
  obtain ⟨h1, h2, h3, h4, h5, h6, h7, h8, h9⟩ := hI
  dsimp only at h1 h2 h3 h4 h5 h6 h7 h8 h9
  interval_cases cn <;>
    rcases ls with _ | i <;> rcases cs with _ | j <;> rcases rs with _ | k <;>
    simp_all [numSelected, GState.col]

theorem reachInv_active_sel (s : GState) (h : ReachInv s) :
    (s.col s.column_number).selected = none ∨
    (s.col s.column_number).selected = some s.row :=
  h.2.2.2.2.2.2.2.2

theorem step_away (s : GState) (e : Input) (hI : ReachInv s)
    (hsel : (s.col s.column_number).selected = some s.row)
    (hd : e ≠ Input.down) (hu : e ≠ Input.up) :
    (step s e).row = s.row ∧
    ((step s e).col (step s e).column_number).selected = some s.row := by
  obtain ⟨⟨li, ls⟩, ⟨ci, cs⟩, ⟨ri, rs⟩, cn, rw, o⟩ := s
  obtain ⟨h1, h2, h3, h4, h5, h6, h7, h8, h9⟩ := hI
  dsimp only at h1 h2 h3 h4 h5 h6 h7 h8 h9 hsel ⊢
  interval_cases cn <;> cases e <;>
    rcases ls with _ | i <;> rcases cs with _ | j <;> rcases rs with _ | k <;>
    simp_all [step, GState.col, GState.setCol, toggle_white, toggleStep,
      ColumnState.next, ColumnState.previous, ColumnState.return_selected,
      ColumnState.unselect, emptyItems]

theorem away_foldl : ∀ (seq : List Input),
    (∀ e ∈ seq, e ≠ Input.down ∧ e ≠ Input.up) →
    ∀ s : GState, ReachInv s →
      (s.col s.column_number).selected = some s.row →
      (seq.foldl step s).row = s.row ∧
      ((seq.foldl step s).col (seq.foldl step s).column_number).selected =
        some s.row := by
  intro seq
  induction seq with
  | nil => exact fun _ s _ h => ⟨rfl, h⟩
  | cons e seq ih =>
      intro hseq s hI hsel
      obtain ⟨hd, hu⟩ := hseq e (List.mem_cons_self e seq)
      have hstep := step_away s e hI hsel hd hu
      have hI' := reachInv_step s e hI
      obtain ⟨ha, hb⟩ := ih (fun x hx => hseq x (List.mem_cons_of_mem e hx))
        (step s e) hI' (by rw [hstep.1]; exact hstep.2)
      simp only [List.foldl_cons]
      rw [ha, hb, hstep.1]
      exact ⟨rfl, rfl⟩

/-! ## Claim theorems -/

/-- C3 (counterexample): the claim as stated fails. After the first input
Left — a recognized input that is a no-op at column 0 — zero columns have a
selection, although the machine is no longer "in the single initial
instant before the first input". -/
theorem c3_zero_after_first_input : numSelected (run [Input.left]) = 0 := by
  decide

/-- C3 (amended): in every state reachable from the initial state, either
the state is still the initial state (zero columns selected; this persists
exactly while only no-op inputs such as Left at column 0, toggle with no
selection, or unrecognized keys have occurred) or exactly one of the three
columns has a selected row. -/
theorem c3_one_selected_or_initial (l : List Input) :
    run l = initState ∨ numSelected (run l) = 1 := by
  rcases focused_run l with h | h
  · exact Or.inl h
  · exact Or.inr (numSelected_focused (run l) (reachInv_run l) h)

/-- C3 (amended, witness): after one Down press exactly one column is
selected. -/
theorem c3_witness : run [Input.down] = initState ∨
    numSelected (run [Input.down]) = 1 :=
  c3_one_selected_or_initial [Input.down]

/-- C4: from any reachable state whose active column has a selected row
`r`, any input sequence that contains no Up and no Down and whose net
effect brings the active column index back to where it started (e.g. Right
then Left) leaves that column's selected row equal to `r`. -/
theorem c4_row_preserved_on_return (l seq : List Input) (r : Nat)
    (hsel : ((run l).col (run l).column_number).selected = some r)
    (hseq : ∀ e ∈ seq, e ≠ Input.down ∧ e ≠ Input.up)
    (hret : (seq.foldl step (run l)).column_number =
      (run l).column_number) :
    ((seq.foldl step (run l)).col (run l).column_number).selected =
      some r := by
  have hI := reachInv_run l
  rcases reachInv_active_sel (run l) hI with h9 | h9
  · rw [h9] at hsel
    exact absurd hsel (by simp)
  · rw [h9] at hsel
    obtain rfl : (run l).row = r := by injection hsel
    have h := away_foldl seq hseq (run l) hI h9
    rw [hret] at h
    exact h.2

/-- C4 (witness): after Down, leaving via Right and returning via Left
restores the selection of column 0 to row 0. -/
theorem c4_witness :
    (([Input.right, Input.left].foldl step
        (run [Input.down])).col (run [Input.down]).column_number).selected =
      some 0 :=
  c4_row_preserved_on_return [Input.down] [Input.right, Input.left] 0
    (by decide) (by decide) (by decide)

/-- C6: from the initial state, the input sequence Down, Down, Right, Up
ends with the active column index 1 and that column's selected row 0. -/
theorem c6_scenario :
    (run [Input.down, Input.down, Input.right, Input.up]).column_number =
      1 ∧
    ((run [Input.down, Input.down, Input.right, Input.up]).col 1).selected =
      some 0 := by
  decide

/-- C7: Right when the active column index is 2, and Left when it is 0,
leave the entire state — all selections, all cell tags, active column,
remembered row, and even the output — unchanged. -/
theorem c7_boundary_noop (s : GState) :
    (s.column_number = 2 → step s Input.right = s) ∧
    (s.column_number = 0 → step s Input.left = s) := by
  constructor <;> intro h <;> simp [step, h]

/-- C7 (witness): the no-ops at both boundaries, evaluated at concrete
states. -/
theorem c7_witness :
    step { initState with column_number := 2 } Input.right =
      { initState with column_number := 2 } ∧
    step initState Input.left = initState :=
  ⟨(c7_boundary_noop { initState with column_number := 2 }).1 rfl,
   (c7_boundary_noop initState).2 rfl⟩

theorem run_snoc (l : List Input) (e : Input) :
    run (l ++ [e]) = step (run l) e := by
  simp [run, List.foldl_append]

theorem run_downs (n : Nat) :
    run (List.replicate n Input.down) = downState n := by
  induction n with
  | zero => decide
  | succ n ih =>
      rw [List.replicate_succ', run_snoc, ih]
      rcases Nat.eq_zero_or_pos n with rfl | hn
      · decide
      · have hn0 : n ≠ 0 := Nat.pos_iff_ne_zero.mp hn
        simp only [step, downState, GState.col, GState.setCol,
          ColumnState.next, ColumnState.return_selected, initState,
          ColumnState.new, emptyItems, if_neg hn0,
          if_neg (Nat.succ_ne_zero n)]
        simp [GState.mk.injEq, ColumnState.mk.injEq]
        split_ifs <;> omega

theorem run_ups (n : Nat) :
    run (List.replicate n Input.up) = upState n := by
  induction n with
  | zero => decide
  | succ n ih =>
      rw [List.replicate_succ', run_snoc, ih]
      rcases Nat.eq_zero_or_pos n with rfl | hn
      · decide
      · have hn0 : n ≠ 0 := Nat.pos_iff_ne_zero.mp hn
        simp only [step, upState, GState.col, GState.setCol,
          ColumnState.previous, ColumnState.return_selected, initState,
          ColumnState.new, emptyItems, if_neg hn0,
          if_neg (Nat.succ_ne_zero n)]
        simp [GState.mk.injEq, ColumnState.mk.injEq]

theorem rowAfterDowns_eq (n : Nat) : rowAfterDowns n = min (n - 1) 2 := by
  rw [rowAfterDowns, run_downs]
  rcases n with _ | m
  · decide
  · simp [downState, GState.col]

theorem rowAfterUps_eq (n : Nat) : rowAfterUps n = 0 := by
  rw [rowAfterUps, run_ups]
  rcases n with _ | m
  · decide
  · simp [upState, GState.col]

/-- C5: over a sequence of Down presses from the initial state the
selected row of the (left, active) column is non-decreasing and never
exceeds row 2 — clamped at the last row, no wraparound to 0 — and over a
sequence of Up presses it is non-increasing, clamped at row 0. -/
theorem c5_down_up_clamped (m n : Nat) (h : m ≤ n) :
    rowAfterDowns m ≤ rowAfterDowns n ∧ rowAfterDowns n ≤ 2 ∧
    rowAfterUps n ≤ rowAfterUps m := by
  simp only [rowAfterDowns_eq, rowAfterUps_eq]
  omega

/-- C5 (witness): rows after one and after four Down presses. -/
theorem c5_witness :
    rowAfterDowns 1 ≤ rowAfterDowns 4 ∧ rowAfterDowns 4 ≤ 2 ∧
    rowAfterUps 4 ≤ rowAfterUps 1 :=
  c5_down_up_clamped 1 4 (by decide)

theorem emptyItems_getElem (r : Nat) (h : r < 3) :
    emptyItems[r]? = some CellColor.red := by
  interval_cases r <;> rfl

theorem stepChecked_eq_step (s : GState) (e : Input) (hI : ReachInv s) :
    stepChecked s e = some (step s e) := by
  obtain ⟨⟨li, ls⟩, ⟨ci, cs⟩, ⟨ri, rs⟩, cn, rw, o⟩ := s
  obtain ⟨h1, h2, h3, h4, h5, h6, h7, h8, h9⟩ := hI
  dsimp only at h1 h2 h3 h4 h5 h6 h7 h8 h9
  interval_cases cn <;> cases e <;>
    rcases ls with _ | i <;> rcases cs with _ | j <;> rcases rs with _ | k <;>
    simp_all [step, stepChecked, GState.col, GState.colChecked,
      GState.setCol, toggle_white, toggleStep, toggleStepChecked,
      ColumnState.next, ColumnState.previous, ColumnState.return_selected,
      ColumnState.unselect, emptyItems_getElem] <;>
    split_ifs <;> simp_all

theorem runChecked_foldl (l : List Input) (s : GState) (hI : ReachInv s) :
    l.foldl (fun acc e => acc.bind (fun s => stepChecked s e)) (some s) =
      some (l.foldl step s) := by
  induction l generalizing s with
  | nil => rfl
  | cons e l ih =>
      simp only [List.foldl_cons, Option.some_bind,
        stepChecked_eq_step s e hI]
      exact ih (step s e) (reachInv_step s e hI)

/-- C8: no dispatcher operation panics on any input sequence from the
initial state: running the machine with every array access
bounds-checked (`runChecked`, where `none` marks the panic the source
would raise) produces exactly the unchecked run — every column index and
every cell index used stays within bounds. -/
theorem c8_no_panic (l : List Input) : runChecked l = some (run l) :=
  runChecked_foldl l initState reachInv_init

theorem toggle_out_of_selected (s : GState) (r : Nat) (hI : ReachInv s)
    (h : s.left_column.selected = some r ∨
      s.central_column.selected = some r ∨
      s.right_column.selected = some r) :
    (step s Input.keyW).out = s.out ++ [r] := by
  obtain ⟨⟨li, ls⟩, ⟨ci, cs⟩, ⟨ri, rs⟩, cn, rw, o⟩ := s
  obtain ⟨h1, h2, h3, h4, h5, h6, h7, h8, h9⟩ := hI
  dsimp only at h1 h2 h3 h4 h5 h6 h7 h8 h9 h
  interval_cases cn <;>
    rcases ls with _ | i <;> rcases cs with _ | j <;> rcases rs with _ | k <;>
    simp_all [step, GState.col, toggle_white, toggleStep,
      ColumnState.return_selected] <;>
    omega

/-- C10: whenever the toggle key 'w' arrives while some column has a
selected row `r` (in a reachable state), the program prints exactly one
more line to standard output, holding that row index. -/
theorem c10_toggle_prints_row (l : List Input) (r : Nat)
    (h : (run l).left_column.selected = some r ∨
      (run l).central_column.selected = some r ∨
      (run l).right_column.selected = some r) :
    (step (run l) Input.keyW).out = (run l).out ++ [r] :=
  toggle_out_of_selected (run l) r (reachInv_run l) h

/-- C10 (witness): after one Down press, the toggle key prints row 0. -/
theorem c10_witness :
    (step (run [Input.down]) Input.keyW).out = (run [Input.down]).out ++ [0] :=
  c10_toggle_prints_row [Input.down] 0 (Or.inl (by decide))

theorem mainLoop_modes : ∀ (inputs : List ReadResult) (s : GState)
    (t t' : TermModes) (s' : GState),
    (mainLoop s t inputs = Outcome.ok t' s' →
      t' = { raw := false, alt := false }) ∧
    (mainLoop s t inputs = Outcome.errored t' s' → t' = t) := by
  intro inputs
  induction inputs with
  | nil =>
      intro s t t' s'
      constructor <;> intro h <;> simp [mainLoop] at h
  | cons rr rest ih =>
      intro s t t' s'
      cases rr with
      | err =>
          constructor <;> intro h <;> simp [mainLoop] at h
          exact h.1.symm
      | ev e =>
          cases e
          case keyQ =>
            constructor <;> intro h <;> simp [mainLoop] at h
            exact h.1.symm
          all_goals
            simpa [mainLoop] using ih (step s _) t t' s'

/-- C2 (counterexample): an error during the event loop (a failed input
read, modelled by `ReadResult.err`) makes `main` return through the `?`
operator with raw mode still enabled and the alternate screen still
active — the terminal mode is not restored on this exit path. -/
theorem c2_error_leaves_raw_mode :
    mainRun [ReadResult.err] =
      Outcome.errored { raw := true, alt := true } initState := by
  decide

/-- C2 (amended): the terminal mode is restored (raw mode disabled,
alternate screen left) on the normal-quit exit path; on an error during
the event loop the error propagates out of `main` without restoration, so
raw mode and the alternate screen are still active when the process
ends. -/
theorem c2_restored_on_quit_only (inputs : List ReadResult)
    (t : TermModes) (s : GState) :
    (mainRun inputs = Outcome.ok t s → t.raw = false ∧ t.alt = false) ∧
    (mainRun inputs = Outcome.errored t s →
      t.raw = true ∧ t.alt = true) := by
  have h := mainLoop_modes inputs initState { raw := true, alt := true } t s
  constructor
  · intro hok
    have ht := h.1 hok
    subst ht
    exact ⟨rfl, rfl⟩
  · intro herr
    have ht := h.2 herr
    subst ht
    exact ⟨rfl, rfl⟩

/-- C2 (amended, witness): quitting immediately ends with both terminal
modes restored. -/
theorem c2_witness :
    mainRun [ReadResult.ev Input.keyQ] =
      Outcome.ok { raw := false, alt := false } initState ∧
    ({ raw := false, alt := false } : TermModes).raw = false ∧
    ({ raw := false, alt := false } : TermModes).alt = false :=
  ⟨by decide,
   (c2_restored_on_quit_only [ReadResult.ev Input.keyQ]
      { raw := false, alt := false } initState).1 (by decide)⟩

/-- C9 (counterexample): with no selection, `return_selected` does not
answer with an explicit optional/variant: it answers with the bare magic
constant `9`, a value of the same `usize` type as the row indices
themselves (the spec's design notes record this conflation in the
original). -/
theorem c9_sentinel_is_magic_nine :
    (ColumnState.new emptyItems).selected = none ∧
    (ColumnState.new emptyItems).return_selected = 9 := by
  decide

/-- C9 (amended): `return_selected` answers the selected row when one is
selected, and otherwise the magic out-of-range constant `9` — distinct
from every valid row index 0, 1, 2, but a plain integer of the row-index
type rather than an explicit optional/variant. -/
theorem c9_sentinel_out_of_range (c : ColumnState) :
    (∀ r, c.selected = some r → c.return_selected = r) ∧
    (c.selected = none →
      c.return_selected = 9 ∧ c.return_selected ≠ 0 ∧
      c.return_selected ≠ 1 ∧ c.return_selected ≠ 2) := by
  rcases c with ⟨items, _ | i⟩ <;>
    simp [ColumnState.return_selected]

/-- C9 (amended, witness): the freshly constructed column with no
selection answers the out-of-range sentinel 9. -/
theorem c9_witness :
    (ColumnState.new emptyItems).return_selected = 9 ∧
    (ColumnState.new emptyItems).return_selected ≠ 0 ∧
    (ColumnState.new emptyItems).return_selected ≠ 1 ∧
    (ColumnState.new emptyItems).return_selected ≠ 2 :=
  (c9_sentinel_out_of_range (ColumnState.new emptyItems)).2 rfl

/-- C1 (the code at the failing input): after Down then the toggle key
'w' from the initial state, the toggle did fire on the selected cell (row
0 of column 0 is selected, and its row index was printed), yet all nine
cells still carry their initial Empty (red) tag: `toggle_white` builds
the white-styled item with the by-value builder `ListItem::style` and
discards it, so the grid is never visually toggled. -/
theorem c1_toggle_has_no_visual_effect :
    (run [Input.down, Input.keyW]).left_column.selected = some 0 ∧
    (run [Input.down, Input.keyW]).out = [0] ∧
    (run [Input.down, Input.keyW]).left_column.items = emptyItems ∧
    (run [Input.down, Input.keyW]).central_column.items = emptyItems ∧
    (run [Input.down, Input.keyW]).right_column.items = emptyItems := by
  decide
